import Mathlib

/-!
Verification of the LCOE space-solar cost model (src/app.py).

The numeric core of the application is embedded shallowly: the Python/numpy
floating-point arithmetic of the LCOE formula is modelled over the exact
rationals, and the logarithmically spaced axes (numpy logspace, which is
10 raised to linearly spaced exponents) are modelled over the reals.
-/

namespace SpacePV

/-- Mapping of the solar-irradiance dropdown option to its numeric value
(app.py line 52). -/
def solar_irr_rate_of (solar_irr_option : String) : ℚ :=
  if solar_irr_option = "5.5 kWh/m2/day (terrestrial)" then 5.5 else 32.6

/-- Mapping of the panel-type dropdown option to the panel efficiency
(app.py line 62). -/
def panel_eff_of (panel_type_option : String) : ℚ :=
  if panel_type_option = "commercial terrestrial (monocrystalline Si)" then 0.21 else 0.32

/-- The discount factors 1 / (1 + discount_rate/100) ^ y for y = 1 .. duration
(app.py lines 93 and 94; numpy arange(1, duration + 1) is empty when the
duration is zero or negative). -/
def discount_factors (project_duration : ℤ) (discount_rate : ℚ) : List ℚ :=
  (List.range project_duration.toNat).map fun k => 1 / (1 + discount_rate / 100) ^ (k + 1)

/-- Total lifetime cost per square metre (app.py line 89):
launch cost times launch mass plus array cost times panel efficiency times
the 1000 W standard incident irradiance reference. -/
def lifetime_cost (launch_cost array_cost launch_mass panel_eff : ℚ) : ℚ :=
  launch_cost * launch_mass + array_cost * panel_eff * 1000

/-- Discounted lifetime energy per square metre (app.py line 95):
the sum over the years of power_gen_rate * 365 * discount factor. -/
def lifetime_energy (power_gen_rate : ℚ) (project_duration : ℤ) (discount_rate : ℚ) : ℚ :=
  ((discount_factors project_duration discount_rate).map
    fun f => power_gen_rate * 365 * f).sum

/-- The LCOE formula of app.py lines 86-98, with the module-level scalars
(launch_mass, panel_eff, power_gen_rate) passed explicitly alongside the
function arguments (launch cost, array cost, project duration, discount
rate). -/
def calculate_lcoe (launch_cost array_cost : ℚ) (project_duration : ℤ)
    (discount_rate launch_mass panel_eff power_gen_rate : ℚ) : ℚ :=
  lifetime_cost launch_cost array_cost launch_mass panel_eff /
    lifetime_energy power_gen_rate project_duration discount_rate

/-- The scalar assumption bundle read from the sidebar widgets. -/
structure AssumptionSet where
  discount_rate : ℚ
  project_duration : ℤ
  panel_eff : ℚ
  solar_irr_rate : ℚ
  launch_mass : ℚ

/-- Derived power generation rate (app.py line 65). -/
def AssumptionSet.power_gen_rate (a : AssumptionSet) : ℚ :=
  a.panel_eff * a.solar_irr_rate

/-- In-range inputs, as constrained by the sidebar widgets: discount rate
slider 1-15, positive integer project duration, efficiency from the panel
dropdown, irradiance from the irradiance dropdown, launch-mass slider
0.1-10. -/
def AssumptionSet.Valid (a : AssumptionSet) : Prop :=
  1 ≤ a.discount_rate ∧ a.discount_rate ≤ 15 ∧
  1 ≤ a.project_duration ∧
  (a.panel_eff = 0.21 ∨ a.panel_eff = 0.32) ∧
  (a.solar_irr_rate = 32.6 ∨ a.solar_irr_rate = 5.5) ∧
  1/10 ≤ a.launch_mass ∧ a.launch_mass ≤ 10

/-- The LCOE grid-cell value for a given assumption bundle. -/
def AssumptionSet.lcoe (a : AssumptionSet) (launch_cost array_cost : ℚ) : ℚ :=
  calculate_lcoe launch_cost array_cost a.project_duration a.discount_rate
    a.launch_mass a.panel_eff a.power_gen_rate

lemma lifetime_energy_eq (P : ℚ) (d : ℤ) (r : ℚ) :
    lifetime_energy P d r = P * 365 * (discount_factors d r).sum := by
  unfold lifetime_energy
  induction discount_factors d r with
  | nil => simp
  | cons x xs ih => simp [ih]; ring

lemma discount_base_pos {r : ℚ} (hr : -100 < r) : 0 < 1 + r / 100 := by
  have : (-1 : ℚ) < r / 100 := by linarith
  linarith

lemma discount_factors_pos {d : ℤ} {r : ℚ} (hr : -100 < r) :
    ∀ x ∈ discount_factors d r, 0 < x := by
  intro x hx
  simp only [discount_factors, List.mem_map, List.mem_range] at hx
  obtain ⟨k, -, rfl⟩ := hx
  exact one_div_pos.mpr (pow_pos (discount_base_pos hr) (k + 1))

lemma discount_factors_ne_nil {d : ℤ} (r : ℚ) (hd : 1 ≤ d) :
    discount_factors d r ≠ [] := by
  have h : d.toNat ≠ 0 := by omega
  simp [discount_factors, h]

lemma sum_discount_factors_pos {d : ℤ} {r : ℚ} (hd : 1 ≤ d) (hr : -100 < r) :
    0 < (discount_factors d r).sum :=
  List.sum_pos _ (discount_factors_pos hr) (discount_factors_ne_nil r hd)

lemma lifetime_energy_pos {P : ℚ} {d : ℤ} {r : ℚ}
    (hP : 0 < P) (hd : 1 ≤ d) (hr : -100 < r) :
    0 < lifetime_energy P d r := by
  rw [lifetime_energy_eq]
  have h365 : (0 : ℚ) < 365 := by norm_num
  exact mul_pos (mul_pos hP h365) (sum_discount_factors_pos hd hr)

lemma valid_power_gen_rate_pos {a : AssumptionSet} (ha : a.Valid) :
    0 < a.power_gen_rate := by
  obtain ⟨-, -, -, he, hirr, -, -⟩ := ha
  unfold AssumptionSet.power_gen_rate
  rcases he with he | he <;> rcases hirr with hi | hi <;> rw [he, hi] <;> norm_num

lemma valid_panel_eff_pos {a : AssumptionSet} (ha : a.Valid) :
    0 < a.panel_eff := by
  obtain ⟨-, -, -, he, -, -, -⟩ := ha
  rcases he with he | he <;> rw [he] <;> norm_num

/-- C1: for every AssumptionSet with in-range inputs and every grid cell with
launch cost in [100, 5000] and array cost in [1, 1000], the LCOE value is
strictly positive (and finite: its denominator, the lifetime energy, is
nonzero). -/
theorem c1_lcoe_pos (a : AssumptionSet) (lc ac : ℚ) (ha : a.Valid)
    (hlc : 100 ≤ lc) (hlc' : lc ≤ 5000) (hac : 1 ≤ ac) (hac' : ac ≤ 1000) :
    0 < a.lcoe lc ac ∧
      lifetime_energy a.power_gen_rate a.project_duration a.discount_rate ≠ 0 := by
  have hP := valid_power_gen_rate_pos ha
  have he := valid_panel_eff_pos ha
  obtain ⟨hr1, hr2, hd, -, -, hm1, hm2⟩ := ha
  have hr : (-100 : ℚ) < a.discount_rate := by linarith
  have hE := lifetime_energy_pos hP hd hr
  have hm : (0 : ℚ) < a.launch_mass := by linarith
  have hC : 0 < lifetime_cost lc ac a.launch_mass a.panel_eff := by
    unfold lifetime_cost
    have h1 : 0 < lc * a.launch_mass := mul_pos (by linarith) hm
    have h2 : 0 < ac * a.panel_eff * 1000 :=
      mul_pos (mul_pos (by linarith) he) (by norm_num)
    linarith
  exact ⟨div_pos hC hE, ne_of_gt hE⟩

/-- Witness for C1 at the default assumptions (discount 7.7 %, 10 years,
monocrystalline panel in space, 2 kg/m²) and the grid cell (1000, 1). -/
theorem c1_lcoe_pos_witness :
    (AssumptionSet.mk 7.7 10 0.21 32.6 2).Valid ∧
      (0 < (AssumptionSet.mk 7.7 10 0.21 32.6 2).lcoe 1000 1 ∧
        lifetime_energy (AssumptionSet.mk 7.7 10 0.21 32.6 2).power_gen_rate 10 7.7 ≠ 0) :=
  ⟨by constructor <;> norm_num [AssumptionSet.Valid],
    c1_lcoe_pos (AssumptionSet.mk 7.7 10 0.21 32.6 2) 1000 1
      (by constructor <;> norm_num [AssumptionSet.Valid])
      (by norm_num) (by norm_num) (by norm_num) (by norm_num)⟩

lemma discount_factors_nonneg {d : ℤ} {r : ℚ} (hr : -100 < r) :
    ∀ x ∈ discount_factors d r, 0 ≤ x :=
  fun x hx => (discount_factors_pos hr x hx).le

lemma sum_discount_factors_anti {d : ℤ} {r1 r2 : ℚ} (h1 : -100 < r1) (h12 : r1 ≤ r2) :
    (discount_factors d r2).sum ≤ (discount_factors d r1).sum := by
  unfold discount_factors
  apply List.sum_le_sum
  intro k _
  have hb1 : 0 < 1 + r1 / 100 := discount_base_pos h1
  apply one_div_le_one_div_of_le (pow_pos hb1 (k + 1))
  exact pow_le_pow_left hb1.le (by linarith) (k + 1)

lemma sum_discount_factors_mono_dur {d1 d2 : ℤ} (r : ℚ) (hr : -100 < r) (h : d1 ≤ d2) :
    (discount_factors d1 r).sum ≤ (discount_factors d2 r).sum := by
  apply List.Sublist.sum_le_sum
  · exact (List.range_sublist.mpr (by omega)).map _
  · exact discount_factors_nonneg hr

lemma lifetime_energy_anti_rate {P : ℚ} {d : ℤ} {r1 r2 : ℚ}
    (hP : 0 ≤ P) (h1 : -100 < r1) (h12 : r1 ≤ r2) :
    lifetime_energy P d r2 ≤ lifetime_energy P d r1 := by
  rw [lifetime_energy_eq, lifetime_energy_eq]
  exact mul_le_mul_of_nonneg_left (sum_discount_factors_anti h1 h12)
    (mul_nonneg hP (by norm_num))

lemma lifetime_energy_mono_dur {P : ℚ} {d1 d2 : ℤ} {r : ℚ}
    (hP : 0 ≤ P) (hr : -100 < r) (h : d1 ≤ d2) :
    lifetime_energy P d1 r ≤ lifetime_energy P d2 r := by
  rw [lifetime_energy_eq, lifetime_energy_eq]
  exact mul_le_mul_of_nonneg_left (sum_discount_factors_mono_dur r hr h)
    (mul_nonneg hP (by norm_num))

lemma lifetime_energy_mono_P {P1 P2 : ℚ} {d : ℤ} {r : ℚ}
    (h12 : P1 ≤ P2) (hr : -100 < r) :
    lifetime_energy P1 d r ≤ lifetime_energy P2 d r := by
  rw [lifetime_energy_eq, lifetime_energy_eq]
  apply mul_le_mul_of_nonneg_right
  · exact mul_le_mul_of_nonneg_right h12 (by norm_num)
  · exact List.sum_nonneg (discount_factors_nonneg hr)

lemma valid_lifetime_cost_pos {a : AssumptionSet} (ha : a.Valid) {lc ac : ℚ}
    (hlc : 100 ≤ lc) (hac : 1 ≤ ac) :
    0 < lifetime_cost lc ac a.launch_mass a.panel_eff := by
  have he := valid_panel_eff_pos ha
  obtain ⟨-, -, -, -, -, hm1, -⟩ := ha
  unfold lifetime_cost
  have h1 : 0 < lc * a.launch_mass := mul_pos (by linarith) (by linarith)
  have h2 : 0 < ac * a.panel_eff * 1000 :=
    mul_pos (mul_pos (by linarith) he) (by norm_num)
  linarith

/-- C3: for a valid AssumptionSet, the LCOE value is monotonically
non-decreasing in the launch cost (first conjunct) and in the array cost
(second conjunct), all other parameters held fixed. -/
theorem c3_monotone_in_costs (a : AssumptionSet) (ha : a.Valid) :
    (∀ lc1 lc2 ac : ℚ, 100 ≤ lc1 → lc1 ≤ lc2 → lc2 ≤ 5000 → 1 ≤ ac → ac ≤ 1000 →
      a.lcoe lc1 ac ≤ a.lcoe lc2 ac) ∧
    (∀ lc ac1 ac2 : ℚ, 100 ≤ lc → lc ≤ 5000 → 1 ≤ ac1 → ac1 ≤ ac2 → ac2 ≤ 1000 →
      a.lcoe lc ac1 ≤ a.lcoe lc ac2) := by
  have hP := valid_power_gen_rate_pos ha
  have he := valid_panel_eff_pos ha
  obtain ⟨hr1, hr2, hd, -, -, hm1, hm2⟩ := ha
  have hr : (-100 : ℚ) < a.discount_rate := by linarith
  have hE := lifetime_energy_pos hP hd hr
  constructor
  · intro lc1 lc2 ac h1 h12 h2 h3 h4
    unfold AssumptionSet.lcoe calculate_lcoe
    apply (div_le_div_right hE).mpr
    unfold lifetime_cost
    have hmul : lc1 * a.launch_mass ≤ lc2 * a.launch_mass :=
      mul_le_mul_of_nonneg_right h12 (by linarith)
    linarith
  · intro lc ac1 ac2 h1 h2 h3 h34 h4
    unfold AssumptionSet.lcoe calculate_lcoe
    apply (div_le_div_right hE).mpr
    unfold lifetime_cost
    have hmul : ac1 * a.panel_eff * 1000 ≤ ac2 * a.panel_eff * 1000 :=
      mul_le_mul_of_nonneg_right (mul_le_mul_of_nonneg_right h34 he.le) (by norm_num)
    linarith

/-- Witness for C3 at the default assumptions: raising the launch cost from
100 to 200 and the array cost from 1 to 2 does not lower the LCOE. -/
theorem c3_monotone_in_costs_witness :
    (AssumptionSet.mk 7.7 10 0.21 32.6 2).Valid ∧
      (AssumptionSet.mk 7.7 10 0.21 32.6 2).lcoe 100 1 ≤
        (AssumptionSet.mk 7.7 10 0.21 32.6 2).lcoe 200 1 ∧
      (AssumptionSet.mk 7.7 10 0.21 32.6 2).lcoe 1000 1 ≤
        (AssumptionSet.mk 7.7 10 0.21 32.6 2).lcoe 1000 2 :=
  ⟨by constructor <;> norm_num [AssumptionSet.Valid],
    (c3_monotone_in_costs (AssumptionSet.mk 7.7 10 0.21 32.6 2)
        (by constructor <;> norm_num [AssumptionSet.Valid])).1
      100 200 1 (by norm_num) (by norm_num) (by norm_num) (by norm_num) (by norm_num),
    (c3_monotone_in_costs (AssumptionSet.mk 7.7 10 0.21 32.6 2)
        (by constructor <;> norm_num [AssumptionSet.Valid])).2
      1000 1 2 (by norm_num) (by norm_num) (by norm_num) (by norm_num) (by norm_num)⟩

/-- C4: for a fixed grid cell and a valid AssumptionSet, the LCOE value is
monotonically non-decreasing in the launch mass and in the discount rate,
and monotonically non-increasing in the project duration and in the power
generation rate, other parameters held fixed. -/
theorem c4_monotone_in_assumptions (a : AssumptionSet) (lc ac : ℚ) (ha : a.Valid)
    (hlc : 100 ≤ lc) (hlc' : lc ≤ 5000) (hac : 1 ≤ ac) (hac' : ac ≤ 1000) :
    (∀ m1 m2 : ℚ, 1/10 ≤ m1 → m1 ≤ m2 → m2 ≤ 10 →
      ({ a with launch_mass := m1 } : AssumptionSet).lcoe lc ac ≤
        ({ a with launch_mass := m2 } : AssumptionSet).lcoe lc ac) ∧
    (∀ r1 r2 : ℚ, 1 ≤ r1 → r1 ≤ r2 → r2 ≤ 15 →
      ({ a with discount_rate := r1 } : AssumptionSet).lcoe lc ac ≤
        ({ a with discount_rate := r2 } : AssumptionSet).lcoe lc ac) ∧
    (∀ d1 d2 : ℤ, 1 ≤ d1 → d1 ≤ d2 →
      ({ a with project_duration := d2 } : AssumptionSet).lcoe lc ac ≤
        ({ a with project_duration := d1 } : AssumptionSet).lcoe lc ac) ∧
    (∀ P1 P2 : ℚ, 0 < P1 → P1 ≤ P2 →
      calculate_lcoe lc ac a.project_duration a.discount_rate a.launch_mass a.panel_eff P2 ≤
        calculate_lcoe lc ac a.project_duration a.discount_rate a.launch_mass a.panel_eff P1) := by
  have hP := valid_power_gen_rate_pos ha
  have he := valid_panel_eff_pos ha
  obtain ⟨hr1, hr2, hd, ha_eff, ha_irr, hm1, hm2⟩ := ha
  have hr : (-100 : ℚ) < a.discount_rate := by linarith
  have hE := lifetime_energy_pos hP hd hr
  refine ⟨?_, ?_, ?_, ?_⟩
  · intro m1 m2 h1 h12 h2
    simp only [AssumptionSet.lcoe, calculate_lcoe, AssumptionSet.power_gen_rate]
    apply (div_le_div_right (by exact lifetime_energy_pos hP hd hr)).mpr
    unfold lifetime_cost
    have hmul : lc * m1 ≤ lc * m2 := mul_le_mul_of_nonneg_left h12 (by linarith)
    linarith
  · intro r1 r2 h1 h12 h2
    simp only [AssumptionSet.lcoe, calculate_lcoe, AssumptionSet.power_gen_rate]
    have h1' : (-100 : ℚ) < r1 := by linarith
    have hE2 : 0 < lifetime_energy (a.panel_eff * a.solar_irr_rate) a.project_duration r2 :=
      lifetime_energy_pos hP hd (by linarith)
    apply div_le_div_of_nonneg_left _ hE2 (lifetime_energy_anti_rate hP.le h1' h12)
    exact (valid_lifetime_cost_pos
      ⟨hr1, hr2, hd, ha_eff, ha_irr, hm1, hm2⟩ hlc hac).le
  · intro d1 d2 h1 h12
    simp only [AssumptionSet.lcoe, calculate_lcoe, AssumptionSet.power_gen_rate]
    have hE1 : 0 < lifetime_energy (a.panel_eff * a.solar_irr_rate) d1 a.discount_rate :=
      lifetime_energy_pos hP h1 hr
    apply div_le_div_of_nonneg_left _ hE1 (lifetime_energy_mono_dur hP.le hr h12)
    exact (valid_lifetime_cost_pos
      ⟨hr1, hr2, hd, ha_eff, ha_irr, hm1, hm2⟩ hlc hac).le
  · intro P1 P2 h1 h12
    simp only [calculate_lcoe]
    have hE1 : 0 < lifetime_energy P1 a.project_duration a.discount_rate :=
      lifetime_energy_pos h1 hd hr
    apply div_le_div_of_nonneg_left _ hE1 (lifetime_energy_mono_P h12 hr)
    exact (valid_lifetime_cost_pos
      ⟨hr1, hr2, hd, ha_eff, ha_irr, hm1, hm2⟩ hlc hac).le

/-- Witness for C4 at the default assumptions and the grid cell (1000, 1):
raising the launch mass from 1 to 2 or the discount rate from 2 to 3 does
not lower the LCOE, and raising the project duration from 5 to 10 years or
the power generation rate from 1 to 2 does not raise it. -/
theorem c4_monotone_in_assumptions_witness :
    (AssumptionSet.mk 7.7 10 0.21 32.6 2).Valid ∧
      (AssumptionSet.mk 7.7 10 0.21 32.6 1).lcoe 1000 1 ≤
        (AssumptionSet.mk 7.7 10 0.21 32.6 2).lcoe 1000 1 ∧
      (AssumptionSet.mk 2 10 0.21 32.6 2).lcoe 1000 1 ≤
        (AssumptionSet.mk 3 10 0.21 32.6 2).lcoe 1000 1 ∧
      (AssumptionSet.mk 7.7 10 0.21 32.6 2).lcoe 1000 1 ≤
        (AssumptionSet.mk 7.7 5 0.21 32.6 2).lcoe 1000 1 ∧
      calculate_lcoe 1000 1 10 7.7 2 0.21 2 ≤ calculate_lcoe 1000 1 10 7.7 2 0.21 1 :=
  ⟨by constructor <;> norm_num [AssumptionSet.Valid],
    (c4_monotone_in_assumptions (AssumptionSet.mk 7.7 10 0.21 32.6 2) 1000 1
        (by constructor <;> norm_num [AssumptionSet.Valid])
        (by norm_num) (by norm_num) (by norm_num) (by norm_num)).1
      1 2 (by norm_num) (by norm_num) (by norm_num),
    (c4_monotone_in_assumptions (AssumptionSet.mk 7.7 10 0.21 32.6 2) 1000 1
        (by constructor <;> norm_num [AssumptionSet.Valid])
        (by norm_num) (by norm_num) (by norm_num) (by norm_num)).2.1
      2 3 (by norm_num) (by norm_num) (by norm_num),
    (c4_monotone_in_assumptions (AssumptionSet.mk 7.7 10 0.21 32.6 2) 1000 1
        (by constructor <;> norm_num [AssumptionSet.Valid])
        (by norm_num) (by norm_num) (by norm_num) (by norm_num)).2.2.1
      5 10 (by norm_num) (by norm_num),
    (c4_monotone_in_assumptions (AssumptionSet.mk 7.7 10 0.21 32.6 2) 1000 1
        (by constructor <;> norm_num [AssumptionSet.Valid])
        (by norm_num) (by norm_num) (by norm_num) (by norm_num)).2.2.2
      1 2 (by norm_num) (by norm_num)⟩

/-- C2 counterexample: at discount 7.7 %, 10 years, irradiance 32.6,
efficiency 0.21, launch mass 2, launch cost 1000 and array cost 1, the
lifetime energy is not approximately 17233 (it is more than 200 below that
figure) and the LCOE is not approximately 0.1282 (it exceeds that figure by
more than 0.0018). -/
theorem c2_example_counterexample :
    |lifetime_energy 6.846 10 7.7 - 17233| > 200 ∧
    |calculate_lcoe 1000 1 10 7.7 2 0.21 6.846 - 0.1282| > 0.0018 := by
  constructor <;>
      simp only [calculate_lcoe, lifetime_cost, lifetime_energy, discount_factors,
        show ((10 : ℤ).toNat = 10) from rfl, List.range_succ,
        List.range_zero, List.map_append, List.map_cons, List.map_nil, List.sum_append,
        List.sum_cons, List.sum_nil, List.nil_append] <;>
    rw [gt_iff_lt, lt_abs]
  · right
    norm_num
  · left
    norm_num

/-- C2 amended: with the same inputs, powerGenRate equals 6.846 exactly,
lifetimeCost equals 2210 exactly, lifetimeEnergy equals
6.846 * 365 * the sum over y = 1..10 of (1/1.077)^y, where that sum is
approximately 6.8018 (not 6.896), lifetimeEnergy is approximately 16996.36
(not 17233), and the LCOE, the ratio of lifetime cost to lifetime energy, is
approximately 0.13003 (not 0.1282). -/
theorem c2_example_values :
    (0.21 : ℚ) * 32.6 = 6.846 ∧
    lifetime_cost 1000 1 2 0.21 = 2210 ∧
    lifetime_energy 6.846 10 7.7 =
      6.846 * 365 * ((List.range 10).map fun k => (1 / 1.077 : ℚ) ^ (k + 1)).sum ∧
    |((List.range 10).map fun k => (1 / 1.077 : ℚ) ^ (k + 1)).sum - 6.8018| < 0.0001 ∧
    |lifetime_energy 6.846 10 7.7 - 16996.36| < 0.01 ∧
    calculate_lcoe 1000 1 10 7.7 2 0.21 6.846 =
      lifetime_cost 1000 1 2 0.21 / lifetime_energy 6.846 10 7.7 ∧
    |calculate_lcoe 1000 1 10 7.7 2 0.21 6.846 - 0.13003| < 0.00001 := by
  refine ⟨by norm_num, by norm_num [lifetime_cost], ?_, ?_, ?_, rfl, ?_⟩ <;>
    · simp only [calculate_lcoe, lifetime_cost, lifetime_energy, discount_factors,
        show ((10 : ℤ).toNat = 10) from rfl, List.range_succ,
        List.range_zero, List.map_append, List.map_cons, List.map_nil, List.sum_append,
        List.sum_cons, List.sum_nil, List.nil_append]
      norm_num [abs_lt]

/-- Continuation of a Python decimal digit sequence after a leading digit:
further digits, with single underscores allowed only between digits. -/
def digitsTail : List Char → Bool
  | [] => true
  | '_' :: c :: rest => c.isDigit && digitsTail rest
  | ['_'] => false
  | c :: rest => c.isDigit && digitsTail rest

/-- A nonempty Python decimal digit sequence (digits with single underscores
between digits). -/
def isPyDigitSeq : List Char → Bool
  | [] => false
  | c :: rest => c.isDigit && digitsTail rest

/-- Numeric value of a digit sequence, ignoring underscores. -/
def digitsValue (cs : List Char) : ℕ :=
  (cs.filter fun c => c ≠ '_').foldl (fun n c => 10 * n + (c.toNat - 48)) 0

/-- The Python builtin int() applied to a string: optional surrounding
whitespace, an optional sign, then a decimal digit sequence; any other text
raises ValueError, modelled as none. -/
def parsePyInt (s : String) : Option ℤ :=
  let cs := ((s.toList.dropWhile Char.isWhitespace).reverse.dropWhile
    Char.isWhitespace).reverse
  match cs with
  | '+' :: rest => if isPyDigitSeq rest then some (digitsValue rest : ℤ) else none
  | '-' :: rest => if isPyDigitSeq rest then some (-(digitsValue rest : ℤ)) else none
  | rest => if isPyDigitSeq rest then some (digitsValue rest : ℤ) else none

/-- The project-duration validation of app.py lines 34-42: parse the text
input; on a parse failure or a non-positive value, report a validation error
(the Boolean component) and fall back to the default duration 10. -/
def validate_project_duration (s : String) : ℤ × Bool :=
  match parsePyInt s with
  | none => (10, true)
  | some k => if k ≤ 0 then (10, true) else (k, false)

/-- C8: any project-duration text that does not parse as an integer, or that
parses to a non-positive integer, yields the default duration 10 together
with a reported validation error; and for every input whatsoever the
resulting duration is at least 1, so no invalid or non-positive value
reaches the LCOE computation. -/
theorem c8_duration_validation (s : String) :
    ((parsePyInt s = none ∨ ∃ k : ℤ, parsePyInt s = some k ∧ k ≤ 0) →
      validate_project_duration s = (10, true)) ∧
    1 ≤ (validate_project_duration s).1 := by
  unfold validate_project_duration
  constructor
  · rintro (hp | ⟨k, hp, hk⟩) <;> rw [hp]
    simp [hk]
  · match hp : parsePyInt s with
    | none => simp
    | some k =>
      by_cases hk : k ≤ 0
      · simp [hk]
      · simp only [if_neg hk]
        omega

/-- Witness for C8 at the inputs from the spec: the non-integer text abc,
the negative text -5 and the zero text 0 all report an error and fall back
to the duration 10. -/
theorem c8_duration_validation_witness :
    (parsePyInt ("abc") = none ∨ ∃ k : ℤ, parsePyInt ("abc") = some k ∧ k ≤ 0) ∧
      validate_project_duration ("abc") = (10, true) ∧
    ((parsePyInt ("-5") = none ∨ ∃ k : ℤ, parsePyInt ("-5") = some k ∧ k ≤ 0) ∧
      validate_project_duration ("-5") = (10, true)) ∧
    ((parsePyInt ("0") = none ∨ ∃ k : ℤ, parsePyInt ("0") = some k ∧ k ≤ 0) ∧
      validate_project_duration ("0") = (10, true)) :=
  ⟨Or.inl rfl, (c8_duration_validation ("abc")).1 (Or.inl rfl),
    ⟨Or.inr ⟨-5, rfl, by norm_num⟩,
      (c8_duration_validation ("-5")).1 (Or.inr ⟨-5, rfl, by norm_num⟩)⟩,
    ⟨Or.inr ⟨0, rfl, le_refl 0⟩,
      (c8_duration_validation ("0")).1 (Or.inr ⟨0, rfl, le_refl 0⟩)⟩⟩

/-- C9: whenever the project duration is at least 1, the power generation
rate is positive and the discount rate exceeds -100 (all guaranteed before
the evaluator is called), the lifetime-energy denominator is a sum over a
nonempty list of strictly positive terms and is itself strictly positive, so
the division in the evaluator never divides by zero; conversely a duration
of zero or less makes the lifetime energy exactly 0. -/
theorem c9_denominator_guard (P r : ℚ) (d : ℤ) :
    (1 ≤ d → 0 < P → -100 < r →
      discount_factors d r ≠ [] ∧ (∀ x ∈ discount_factors d r, 0 < x) ∧
        0 < lifetime_energy P d r ∧ lifetime_energy P d r ≠ 0) ∧
    (d ≤ 0 → lifetime_energy P d r = 0) := by
  constructor
  · intro hd hP hr
    have hE := lifetime_energy_pos hP hd hr
    exact ⟨discount_factors_ne_nil r hd, discount_factors_pos hr, hE, ne_of_gt hE⟩
  · intro hd
    have h : d.toNat = 0 := by omega
    simp [lifetime_energy, discount_factors, h]

/-- Witness for C9: at power rate 1, discount rate 0 and duration 1 the
lifetime energy is positive; at duration 0 it vanishes. -/
theorem c9_denominator_guard_witness :
    0 < lifetime_energy 1 1 0 ∧ lifetime_energy 1 0 0 = 0 :=
  ⟨((c9_denominator_guard 1 0 1).1 (le_refl 1) one_pos (by norm_num)).2.2.1,
    (c9_denominator_guard 1 0 0).2 (le_refl 0)⟩

/-- First-occurrence minimum of a list, as numpy argmin computes it: the
index of the minimum together with the minimum value, keeping the earlier
index on ties. -/
def argminPair {α : Type} [LinearOrder α] : List α → Option (ℕ × α)
  | [] => none
  | a :: as =>
    match argminPair as with
    | none => some (0, a)
    | some (i, m) => if m < a then some (i + 1, m) else some (0, a)

/-- Index of the first occurrence of the minimum (numpy argmin); 0 on the
empty list. -/
def argminList {α : Type} [LinearOrder α] (l : List α) : ℕ :=
  (argminPair l).elim 0 Prod.fst

/-- numpy argmin of the elementwise absolute difference to a target value
(app.py lines 197 and 198). -/
def argminAbs {α : Type} [LinearOrderedField α] (l : List α) (t : α) : ℕ :=
  argminList (l.map fun v => |v - t|)

lemma argminPair_eq_none {α : Type} [LinearOrder α] (l : List α) :
    argminPair l = none ↔ l = [] := by
  cases l with
  | nil => simp [argminPair]
  | cons a as =>
    simp only [argminPair]
    cases h : argminPair as with
    | none => simp
    | some im =>
      obtain ⟨i, m⟩ := im
      by_cases hm : m < a <;> simp [hm]

lemma argminPair_spec {α : Type} [LinearOrder α] :
    ∀ (l : List α) (i : ℕ) (m : α), argminPair l = some (i, m) →
      ∃ hi : i < l.length, l.get ⟨i, hi⟩ = m ∧
        (∀ k (hk : k < l.length), m ≤ l.get ⟨k, hk⟩) ∧
        (∀ k (hk : k < i), m < l.get ⟨k, Nat.lt_trans hk hi⟩)
  | [], i, m => by intro h; simp [argminPair] at h
  | a :: as, i, m => by
    intro h
    simp only [argminPair] at h
    cases has : argminPair as with
    | none =>
      rw [has] at h
      simp only [Option.some.injEq, Prod.mk.injEq] at h
      obtain ⟨rfl, rfl⟩ := h
      have hnil : as = [] := (argminPair_eq_none as).mp has
      subst hnil
      refine ⟨by simp, rfl, ?_, ?_⟩
      · intro k hk
        have hk0 : k = 0 := by simpa using hk
        subst hk0
        exact le_refl _
      · intro k hk
        exact absurd hk (Nat.not_lt_zero k)
    | some im =>
      obtain ⟨j, m'⟩ := im
      rw [has] at h
      have h' : (if m' < a then some (j + 1, m') else some (0, a)) = some (i, m) := h
      obtain ⟨hj, hget, hmin, hfirst⟩ := argminPair_spec as j m' has
      by_cases hlt : m' < a
      · rw [if_pos hlt] at h'
        simp only [Option.some.injEq, Prod.mk.injEq] at h'
        obtain ⟨rfl, rfl⟩ := h'
        refine ⟨by simpa using hj, hget, ?_, ?_⟩
        · intro k hk
          cases k with
          | zero => exact hlt.le
          | succ k' => exact hmin k' (by simpa using hk)
        · intro k hk
          cases k with
          | zero => exact hlt
          | succ k' => exact hfirst k' (by omega)
      · rw [if_neg hlt] at h'
        simp only [Option.some.injEq, Prod.mk.injEq] at h'
        obtain ⟨rfl, rfl⟩ := h'
        refine ⟨by simp, rfl, ?_, ?_⟩
        · intro k hk
          cases k with
          | zero => exact le_refl _
          | succ k' => exact le_trans (le_of_not_lt hlt) (hmin k' (by simpa using hk))
        · intro k hk
          exact absurd hk (Nat.not_lt_zero k)

lemma argminList_spec {α : Type} [LinearOrder α] (l : List α) (hne : l ≠ []) :
    ∃ h : argminList l < l.length,
      (∀ k (hk : k < l.length), l.get ⟨argminList l, h⟩ ≤ l.get ⟨k, hk⟩) ∧
      (∀ k (hk : k < argminList l),
        l.get ⟨argminList l, h⟩ < l.get ⟨k, Nat.lt_trans hk h⟩) := by
  cases hp : argminPair l with
  | none => exact absurd ((argminPair_eq_none l).mp hp) hne
  | some im =>
    obtain ⟨i, m⟩ := im
    obtain ⟨hi, hget, hmin, hfirst⟩ := argminPair_spec l i m hp
    have hL : argminList l = i := by simp [argminList, hp]
    subst hL
    refine ⟨hi, ?_, ?_⟩
    · intro k hk
      rw [hget]
      exact hmin k hk
    · intro k hk
      rw [hget]
      exact hfirst k hk

lemma argminAbs_spec {α : Type} [LinearOrderedField α] (l : List α) (t : α) (hne : l ≠ []) :
    ∃ h : argminAbs l t < l.length,
      (∀ k (hk : k < l.length),
        |l.get ⟨argminAbs l t, h⟩ - t| ≤ |l.get ⟨k, hk⟩ - t|) ∧
      (∀ k (hk : k < argminAbs l t),
        |l.get ⟨argminAbs l t, h⟩ - t| < |l.get ⟨k, Nat.lt_trans hk h⟩ - t|) := by
  have hne' : l.map (fun v => |v - t|) ≠ [] := by simpa using hne
  obtain ⟨h, hmin, hfirst⟩ := argminList_spec (l.map fun v => |v - t|) hne'
  have hlen : (l.map fun v => |v - t|).length = l.length := List.length_map l _
  have hget : ∀ (k : ℕ) (hk : k < l.length),
      (l.map fun v => |v - t|).get ⟨k, by rw [hlen]; exact hk⟩ = |l.get ⟨k, hk⟩ - t| := by
    intro k hk
    simp
  have hidx : argminAbs l t < l.length := by rw [← hlen]; exact h
  refine ⟨hidx, ?_, ?_⟩
  · intro k hk
    rw [← hget _ hidx, ← hget _ hk]
    exact hmin k (by rw [hlen]; exact hk)
  · intro k hk
    rw [← hget _ hidx, ← hget _ (Nat.lt_trans hk hidx)]
    exact hfirst k hk

/-- The LCOE grid built by the meshgrid evaluation (app.py lines 112-120):
the cell at row i, column j pairs the array-cost axis value at index i with
the launch-cost axis value at index j. -/
def lcoe_grid_cell (a : AssumptionSet) (launch_pts array_pts : List ℚ) (i j : ℕ) : ℚ :=
  a.lcoe (launch_pts.getD j 0) (array_pts.getD i 0)

/-- The nearest-cell fallback lookup of app.py lines 196-199: argmin of the
absolute difference on each axis independently, then the grid cell at
(array-cost index, launch-cost index). -/
def nearest_lcoe {α : Type} [LinearOrderedField α] (launch_pts array_pts : List α)
    (grid : ℕ → ℕ → α) (x y : α) : α :=
  grid (argminAbs array_pts y) (argminAbs launch_pts x)

/-- C5: the nearest-cell lookup returns the grid value at the pair of
indices minimising the absolute difference to the query on each axis
independently, with the lower index preferred on ties (every strictly
smaller index has strictly larger absolute difference); both indices are in
bounds, so the result is a value present in the grid; and on the grid that
was built row-by-array-cost, the returned value is the LCOE at the nearest
launch-cost and array-cost axis values. -/
theorem c5_nearest_cell_lookup (launch_pts array_pts : List ℚ) (grid : ℕ → ℕ → ℚ)
    (x y : ℚ) (hlp : launch_pts ≠ []) (hap : array_pts ≠ []) :
    ∃ (hi : argminAbs array_pts y < array_pts.length)
      (hj : argminAbs launch_pts x < launch_pts.length),
      nearest_lcoe launch_pts array_pts grid x y =
        grid (argminAbs array_pts y) (argminAbs launch_pts x) ∧
      (∀ k (hk : k < array_pts.length),
        |array_pts.get ⟨argminAbs array_pts y, hi⟩ - y| ≤ |array_pts.get ⟨k, hk⟩ - y|) ∧
      (∀ k (hk : k < argminAbs array_pts y),
        |array_pts.get ⟨argminAbs array_pts y, hi⟩ - y| <
          |array_pts.get ⟨k, Nat.lt_trans hk hi⟩ - y|) ∧
      (∀ k (hk : k < launch_pts.length),
        |launch_pts.get ⟨argminAbs launch_pts x, hj⟩ - x| ≤
          |launch_pts.get ⟨k, hk⟩ - x|) ∧
      (∀ k (hk : k < argminAbs launch_pts x),
        |launch_pts.get ⟨argminAbs launch_pts x, hj⟩ - x| <
          |launch_pts.get ⟨k, Nat.lt_trans hk hj⟩ - x|) ∧
      (∀ a : AssumptionSet,
        nearest_lcoe launch_pts array_pts (lcoe_grid_cell a launch_pts array_pts) x y =
          a.lcoe (launch_pts.get ⟨argminAbs launch_pts x, hj⟩)
            (array_pts.get ⟨argminAbs array_pts y, hi⟩)) := by
  obtain ⟨hi, hamin, hafirst⟩ := argminAbs_spec array_pts y hap
  obtain ⟨hj, hlmin, hlfirst⟩ := argminAbs_spec launch_pts x hlp
  refine ⟨hi, hj, rfl, hamin, hafirst, hlmin, hlfirst, ?_⟩
  intro a
  unfold nearest_lcoe lcoe_grid_cell
  rw [List.getD_eq_get _ _ hj, List.getD_eq_get _ _ hi]

/-- Witness for C5 on the two-point launch axis [1, 2], the one-point array
axis [5] and the query (0, 0). -/
theorem c5_nearest_cell_lookup_witness :
    ([1, 2] : List ℚ) ≠ [] ∧ ([5] : List ℚ) ≠ [] ∧
      ∃ (hi : argminAbs ([5] : List ℚ) 0 < ([5] : List ℚ).length)
        (hj : argminAbs ([1, 2] : List ℚ) 0 < ([1, 2] : List ℚ).length),
        nearest_lcoe [1, 2] [5] (fun i j => (i : ℚ) * 10 + j) 0 0 =
          (argminAbs ([5] : List ℚ) 0 : ℚ) * 10 + argminAbs ([1, 2] : List ℚ) 0 ∧
        (∀ k (hk : k < ([5] : List ℚ).length),
          |([5] : List ℚ).get ⟨argminAbs ([5] : List ℚ) 0, hi⟩ - 0| ≤
            |([5] : List ℚ).get ⟨k, hk⟩ - 0|) ∧
        (∀ k (hk : k < argminAbs ([5] : List ℚ) 0),
          |([5] : List ℚ).get ⟨argminAbs ([5] : List ℚ) 0, hi⟩ - 0| <
            |([5] : List ℚ).get ⟨k, Nat.lt_trans hk hi⟩ - 0|) ∧
        (∀ k (hk : k < ([1, 2] : List ℚ).length),
          |([1, 2] : List ℚ).get ⟨argminAbs ([1, 2] : List ℚ) 0, hj⟩ - 0| ≤
            |([1, 2] : List ℚ).get ⟨k, hk⟩ - 0|) ∧
        (∀ k (hk : k < argminAbs ([1, 2] : List ℚ) 0),
          |([1, 2] : List ℚ).get ⟨argminAbs ([1, 2] : List ℚ) 0, hj⟩ - 0| <
            |([1, 2] : List ℚ).get ⟨k, Nat.lt_trans hk hj⟩ - 0|) ∧
        (∀ a : AssumptionSet,
          nearest_lcoe [1, 2] [5] (lcoe_grid_cell a [1, 2] [5]) 0 0 =
            a.lcoe (([1, 2] : List ℚ).get ⟨argminAbs ([1, 2] : List ℚ) 0, hj⟩)
              (([5] : List ℚ).get ⟨argminAbs ([5] : List ℚ) 0, hi⟩)) :=
  ⟨by simp, by simp,
    c5_nearest_cell_lookup [1, 2] [5] (fun i j => (i : ℚ) * 10 + j) 0 0
      (by simp) (by simp)⟩

/-- A selection event point as delivered by the plotting layer: optional x
and y coordinates and an optional companion exact LCOE value (the customdata
of the invisible scatter markers). -/
structure SelPoint (α : Type) where
  x : Option α
  y : Option α
  customdata : Option α

/-- The selection-resolution logic of app.py lines 187-205: missing
coordinates default to 0; a companion customdata value is used as the LCOE
as-is, and only when it is absent is the nearest-cell grid lookup
performed. Returns the stored (launch_cost, array_cost, lcoe) triple. -/
def selectionResolve {α : Type} [LinearOrderedField α] (launch_pts array_pts : List α)
    (grid : ℕ → ℕ → α) (p : SelPoint α) : α × α × α :=
  let selected_launch_cost := p.x.getD 0
  let selected_array_cost := p.y.getD 0
  let selected_lcoe :=
    match p.customdata with
    | some v => v
    | none => grid (argminAbs array_pts selected_array_cost)
        (argminAbs launch_pts selected_launch_cost)
  (selected_launch_cost, selected_array_cost, selected_lcoe)

/-- C6: when a selection event carries a companion exact LCOE value, the
resolved triple carries that value unchanged, independently of the axes and
the grid, so the nearest-cell lookup is not consulted; when the companion
value is absent, the resolved LCOE is exactly the nearest-cell fallback
lookup. -/
theorem c6_companion_value (p : SelPoint ℚ) :
    (∀ v : ℚ, p.customdata = some v →
      ∀ (launch_pts array_pts : List ℚ) (grid : ℕ → ℕ → ℚ),
        selectionResolve launch_pts array_pts grid p = (p.x.getD 0, p.y.getD 0, v)) ∧
    (p.customdata = none →
      ∀ (launch_pts array_pts : List ℚ) (grid : ℕ → ℕ → ℚ),
        selectionResolve launch_pts array_pts grid p =
          (p.x.getD 0, p.y.getD 0,
            nearest_lcoe launch_pts array_pts grid (p.x.getD 0) (p.y.getD 0))) := by
  constructor
  · intro v hv launch_pts array_pts grid
    simp [selectionResolve, hv]
  · intro hv launch_pts array_pts grid
    simp [selectionResolve, nearest_lcoe, hv]

/-- Witness for C6: a point at (3, 4) carrying companion value 5 resolves to
(3, 4, 5) on arbitrary axes and grid. -/
theorem c6_companion_value_witness :
    (SelPoint.mk (some 3) (some 4) (some 5) : SelPoint ℚ).customdata = some 5 ∧
      selectionResolve ([] : List ℚ) [] (fun _ _ => 0)
        (SelPoint.mk (some 3) (some 4) (some 5)) = (3, 4, 5) :=
  ⟨rfl, (c6_companion_value (SelPoint.mk (some 3) (some 4) (some 5))).1 5 rfl [] []
    fun _ _ => 0⟩

/-- numpy logspace: the i-th of num samples whose base-10 logarithms are
evenly spaced from start to stop (app.py lines 104 and 109). -/
noncomputable def logspace (start stop : ℝ) (num : ℕ) (i : ℕ) : ℝ :=
  (10 : ℝ) ^ (start + (i : ℝ) * ((stop - start) / ((num : ℝ) - 1)))

/-- The launch-cost axis (app.py line 104): 50 points log-spaced from 100
to 5000. -/
noncomputable def launch_cost_points (i : ℕ) : ℝ :=
  logspace (Real.logb 10 100) (Real.logb 10 5000) 50 i

/-- The array-cost axis (app.py line 109): 50 points log-spaced from 1
to 1000. -/
noncomputable def array_cost_points (i : ℕ) : ℝ :=
  logspace (Real.logb 10 1) (Real.logb 10 1000) 50 i

/-- The launch-cost axis as the list of its 50 samples. -/
noncomputable def launch_cost_points_list : List ℝ :=
  (List.range 50).map launch_cost_points

/-- The array-cost axis as the list of its 50 samples. -/
noncomputable def array_cost_points_list : List ℝ :=
  (List.range 50).map array_cost_points

lemma logspace_pos (start stop : ℝ) (num i : ℕ) : 0 < logspace start stop num i :=
  Real.rpow_pos_of_pos (by norm_num) _

lemma logspace_strictMono (start stop : ℝ) (hst : start < stop) {i j : ℕ} (hij : i < j) :
    logspace start stop 50 i < logspace start stop 50 j := by
  unfold logspace
  apply (Real.rpow_lt_rpow_left_iff (by norm_num : (1 : ℝ) < 10)).mpr
  have hstep : 0 < (stop - start) / (((50 : ℕ) : ℝ) - 1) := by
    apply div_pos (by linarith)
    norm_num
  have hijr : (i : ℝ) < (j : ℝ) := by exact_mod_cast hij
  have := mul_lt_mul_of_pos_right hijr hstep
  linarith

lemma launch_cost_points_zero : launch_cost_points 0 = 100 := by
  unfold launch_cost_points logspace
  rw [Nat.cast_zero, zero_mul, add_zero]
  exact Real.rpow_logb (by norm_num) (by norm_num) (by norm_num)

lemma launch_cost_points_last : launch_cost_points 49 = 5000 := by
  unfold launch_cost_points logspace
  have h : Real.logb 10 100 + ((49 : ℕ) : ℝ) *
      ((Real.logb 10 5000 - Real.logb 10 100) / (((50 : ℕ) : ℝ) - 1)) =
      Real.logb 10 5000 := by
    push_cast
    ring
  rw [h]
  exact Real.rpow_logb (by norm_num) (by norm_num) (by norm_num)

lemma array_cost_points_zero : array_cost_points 0 = 1 := by
  unfold array_cost_points logspace
  rw [Nat.cast_zero, zero_mul, add_zero]
  exact Real.rpow_logb (by norm_num) (by norm_num) (by norm_num)

lemma array_cost_points_last : array_cost_points 49 = 1000 := by
  unfold array_cost_points logspace
  have h : Real.logb 10 1 + ((49 : ℕ) : ℝ) *
      ((Real.logb 10 1000 - Real.logb 10 1) / (((50 : ℕ) : ℝ) - 1)) =
      Real.logb 10 1000 := by
    push_cast
    ring
  rw [h]
  exact Real.rpow_logb (by norm_num) (by norm_num) (by norm_num)

lemma launch_cost_points_strictMono {i j : ℕ} (hij : i < j) :
    launch_cost_points i < launch_cost_points j :=
  logspace_strictMono _ _
    (Real.logb_lt_logb (by norm_num) (by norm_num) (by norm_num)) hij

lemma array_cost_points_strictMono {i j : ℕ} (hij : i < j) :
    array_cost_points i < array_cost_points j :=
  logspace_strictMono _ _
    (Real.logb_lt_logb (by norm_num) (by norm_num) (by norm_num)) hij

/-- C7: each axis has exactly 50 samples; the launch-cost axis runs from 100
(index 0) to 5000 (index 49) and the array-cost axis from 1 to 1000; and on
each axis consecutive samples stand in a constant ratio (log-uniform
spacing). -/
theorem c7_axis_generation :
    launch_cost_points_list.length = 50 ∧
    launch_cost_points 0 = 100 ∧
    launch_cost_points 49 = 5000 ∧
    (∃ c : ℝ, ∀ i : Fin 49,
      launch_cost_points ((i : ℕ) + 1) = launch_cost_points (i : ℕ) * c) ∧
    array_cost_points_list.length = 50 ∧
    array_cost_points 0 = 1 ∧
    array_cost_points 49 = 1000 ∧
    (∃ c : ℝ, ∀ i : Fin 49,
      array_cost_points ((i : ℕ) + 1) = array_cost_points (i : ℕ) * c) := by
  refine ⟨by simp [launch_cost_points_list], launch_cost_points_zero,
    launch_cost_points_last, ?_, by simp [array_cost_points_list],
    array_cost_points_zero, array_cost_points_last, ?_⟩
  · refine ⟨(10 : ℝ) ^ ((Real.logb 10 5000 - Real.logb 10 100) / 49), ?_⟩
    intro i
    unfold launch_cost_points logspace
    rw [← Real.rpow_add (by norm_num : (0 : ℝ) < 10)]
    congr 1
    push_cast
    ring
  · refine ⟨(10 : ℝ) ^ ((Real.logb 10 1000 - Real.logb 10 1) / 49), ?_⟩
    intro i
    unfold array_cost_points logspace
    rw [← Real.rpow_add (by norm_num : (0 : ℝ) < 10)]
    congr 1
    push_cast
    ring

lemma argminPair_cons_of_le {α : Type} [LinearOrder α] (a : α) (as : List α)
    (h : ∀ b ∈ as, a ≤ b) : argminPair (a :: as) = some (0, a) := by
  simp only [argminPair]
  cases has : argminPair as with
  | none => rfl
  | some im =>
    obtain ⟨j, m⟩ := im
    obtain ⟨hj, hget, -, -⟩ := argminPair_spec as j m has
    have hm : a ≤ m := hget ▸ h _ (as.get_mem _ _)
    show (if m < a then some (j + 1, m) else some (0, a)) = some (0, a)
    rw [if_neg (not_lt.mpr hm)]

lemma argminAbs_zero_eq_zero {α : Type} [LinearOrderedField α] (a : α) (as : List α)
    (ha : 0 < a) (hle : ∀ b ∈ as, a ≤ b) (hnn : ∀ b ∈ as, 0 ≤ b) :
    argminAbs (a :: as) 0 = 0 := by
  unfold argminAbs argminList
  rw [List.map_cons]
  have hmap : ∀ b ∈ as.map fun v => |v - 0|, |a - 0| ≤ b := by
    intro b hb
    simp only [List.mem_map] at hb
    obtain ⟨v, hv, rfl⟩ := hb
    rw [sub_zero, sub_zero, abs_of_pos ha, abs_of_nonneg (hnn v hv)]
    exact hle v hv
  rw [argminPair_cons_of_le _ _ hmap]
  rfl

lemma launch_cost_points_list_eq :
    launch_cost_points_list =
      launch_cost_points 0 ::
        (List.range 49).map fun k => launch_cost_points (k + 1) := by
  unfold launch_cost_points_list
  rw [show (50 : ℕ) = 49 + 1 from rfl, List.range_succ_eq_map, List.map_cons,
    List.map_map]
  simp [Function.comp_def, Nat.succ_eq_add_one]

lemma array_cost_points_list_eq :
    array_cost_points_list =
      array_cost_points 0 ::
        (List.range 49).map fun k => array_cost_points (k + 1) := by
  unfold array_cost_points_list
  rw [show (50 : ℕ) = 49 + 1 from rfl, List.range_succ_eq_map, List.map_cons,
    List.map_map]
  simp [Function.comp_def, Nat.succ_eq_add_one]

/-- C10: a selection event whose point lacks both coordinates and the
companion value resolves with 0 substituted for each missing coordinate, and
the nearest-cell fallback maps those zeros to index 0 on each axis, whose
values are the axis minima 100 and 1; so the displayed triple pairs
coordinate 0 with the LCOE of the lowest-index cell. -/
theorem c10_missing_coordinates (grid : ℕ → ℕ → ℝ) :
    selectionResolve launch_cost_points_list array_cost_points_list grid
        (SelPoint.mk none none none) = (0, 0, grid 0 0) ∧
    launch_cost_points_list.head? = some 100 ∧
    array_cost_points_list.head? = some 1 := by
  have hlaunch : argminAbs launch_cost_points_list 0 = 0 := by
    rw [launch_cost_points_list_eq]
    apply argminAbs_zero_eq_zero
    · rw [launch_cost_points_zero]
      norm_num
    · intro b hb
      simp only [List.mem_map] at hb
      obtain ⟨k, -, rfl⟩ := hb
      exact (launch_cost_points_strictMono (Nat.succ_pos k)).le
    · intro b hb
      simp only [List.mem_map] at hb
      obtain ⟨k, -, rfl⟩ := hb
      exact (logspace_pos _ _ _ _).le
  have harray : argminAbs array_cost_points_list 0 = 0 := by
    rw [array_cost_points_list_eq]
    apply argminAbs_zero_eq_zero
    · rw [array_cost_points_zero]
      norm_num
    · intro b hb
      simp only [List.mem_map] at hb
      obtain ⟨k, -, rfl⟩ := hb
      exact (array_cost_points_strictMono (Nat.succ_pos k)).le
    · intro b hb
      simp only [List.mem_map] at hb
      obtain ⟨k, -, rfl⟩ := hb
      exact (logspace_pos _ _ _ _).le
  refine ⟨?_, ?_, ?_⟩
  · simp [selectionResolve, hlaunch, harray]
  · rw [launch_cost_points_list_eq]
    simp [launch_cost_points_zero]
  · rw [array_cost_points_list_eq]
    simp [array_cost_points_zero]

end SpacePV
